import Mathlib

/-!
Shallow embedding of the analytic core of the UIDAI_Data_Hackathon repository
(`biometric_load_balancer.py` and `mobility_signal_index_analysis.py`),
with theorems checking the natural-language specification against it.

Numeric values computed by the Python code in floating point are modelled as
exact rationals (`ℚ`); quantities whose computation goes through a square root
(standard deviations, Pearson correlations) are modelled in `ℝ` via
`Real.sqrt`.  A pandas/NumPy `NaN` outcome is modelled as `Option.none`.
-/

namespace UIDAI

/-- Arithmetic mean of a list, `xs.sum / len(xs)`.  (For the empty list Lean's
division-by-zero convention gives `0`; every call site in the embedded code
guards against empty input, mirroring pandas which would give `NaN`.) -/
def listMean (xs : List ℚ) : ℚ := xs.sum / (xs.length : ℚ)

/-- `pandas.Series.tail(n)`: the last `n` elements. -/
def lastN (n : ℕ) (xs : List ℚ) : List ℚ := xs.drop (xs.length - n)

/- ═══════════════════════════════════════════════════════════════════════════
   `BiometricLoadForecaster.forecast_next_month` (biometric_load_balancer.py)
   A geographic unit's history is the list of its daily records, keyed by
   month; `monthlySums` is `group.groupby('year_month')['total_bio'].sum()`
   (group keys sorted ascending, as pandas does).
   ═══════════════════════════════════════════════════════════════════════════ -/

/-- Distinct month keys of a unit's records, ascending (pandas `groupby`
sorts group keys). -/
def monthKeys (records : List (ℕ × ℚ)) : List ℕ :=
  List.insertionSort (fun a b => a ≤ b) (records.map Prod.fst).dedup

/-- Monthly sums of `total_bio`, in ascending month order:
`group.groupby('year_month')['total_bio'].sum()`. -/
def monthlySums (records : List (ℕ × ℚ)) : List ℚ :=
  (monthKeys records).map (fun m => ((records.filter (fun r => r.1 = m)).map Prod.snd).sum)

/-- District-level trend: if at least 3 months exist,
`(tail(3).mean() - head(3).mean()) / max(head(3).mean(), 1)`, else 0. -/
def districtTrend (ms : List ℚ) : ℚ :=
  if 3 ≤ ms.length then
    (listMean (lastN 3 ms) - listMean (ms.take 3)) / max (listMean (ms.take 3)) 1
  else 0

/-- Pincode-level trend: same formula with 2-month windows and a 2-month
minimum. -/
def pincodeTrend (ms : List ℚ) : ℚ :=
  if 2 ≤ ms.length then
    (listMean (lastN 2 ms) - listMean (ms.take 2)) / max (listMean (ms.take 2)) 1
  else 0

/-- `monthly['total_bio'].iloc[-1] if len(monthly) > 0 else 0`. -/
def lastMonthLoad (ms : List ℚ) : ℚ := ms.getLastD 0

/-- District forecast: `last_month_load * (1 + trend * 0.3)`. -/
def districtForecast (records : List (ℕ × ℚ)) : ℚ :=
  lastMonthLoad (monthlySums records) * (1 + districtTrend (monthlySums records) * (3/10))

/-- Pincode forecast: `last_month_load * (1 + trend * 0.3)`. -/
def pincodeForecast (records : List (ℕ × ℚ)) : ℚ :=
  lastMonthLoad (monthlySums records) * (1 + pincodeTrend (monthlySums records) * (3/10))

/- ═══════════════════════════════════════════════════════════════════════════
   Spike risk (same method):
   `spike_risk = group['total_bio'].std() / max(group['total_bio'].mean(), 1)`
   then `min(spike_risk, 2)`.  pandas `.std()` is the sample standard
   deviation (ddof = 1) and returns NaN on fewer than two values; the NaN
   propagates through `/` and Python's `min`, so the stored value is NaN —
   modelled by `none`.
   ═══════════════════════════════════════════════════════════════════════════ -/

/-- Sum of squared deviations from the mean. -/
def sqDevSum (xs : List ℚ) : ℚ := (xs.map (fun x => (x - listMean xs) ^ 2)).sum

/-- Sample variance (ddof = 1), meaningful only for `2 ≤ xs.length`. -/
def sampleVar (xs : List ℚ) : ℚ := sqDevSum xs / ((xs.length - 1 : ℕ) : ℚ)

/-- Population variance (ddof = 0), `np.var`. -/
def popVar (xs : List ℚ) : ℚ := sqDevSum xs / (xs.length : ℚ)

/-- `min(group.std() / max(group.mean(), 1), 2)` — `none` models the NaN that
pandas' ddof-1 `.std()` produces on fewer than two records. -/
noncomputable def spikeRisk (xs : List ℚ) : Option ℝ :=
  if xs.length ≤ 1 then none
  else some (min (Real.sqrt (sampleVar xs) / max ((listMean xs : ℝ)) 1) 2)

/-- The spec's words for the claimed spike risk: population standard deviation
of the daily counts divided by their mean, clipped to the interval `[0, 2]`. -/
noncomputable def spikeRiskClaimed (xs : List ℚ) : ℝ :=
  min (max (Real.sqrt (popVar xs) / (listMean xs : ℝ)) 0) 2

/- ═══════════════════════════════════════════════════════════════════════════
   `BiometricLoadForecaster.calculate_load_scores`:
   `load_category = pd.cut(load_score, bins=[0, 0.5, 0.75, 0.9, 1.0],
                           labels=['Low','Medium','High','Critical'])`
   `is_overloaded = load_score >= 0.9`
   `pd.cut` with default `right=True` uses left-open right-closed bins
   `(0, 0.5], (0.5, 0.75], (0.75, 0.9], (0.9, 1.0]`; values outside every bin
   get no label (NaN), modelled by `none`.
   ═══════════════════════════════════════════════════════════════════════════ -/

inductive LoadCat where
  | low
  | medium
  | high
  | critical
deriving DecidableEq, Repr

/-- `pd.cut(x, bins=[0, 0.5, 0.75, 0.9, 1.0], labels=[...])` for one value. -/
def loadCategory (x : ℚ) : Option LoadCat :=
  if 0 < x ∧ x ≤ 1/2 then some .low
  else if 1/2 < x ∧ x ≤ 3/4 then some .medium
  else if 3/4 < x ∧ x ≤ 9/10 then some .high
  else if 9/10 < x ∧ x ≤ 1 then some .critical
  else none

/-- `df['is_overloaded'] = df['load_score'] >= 0.9`. -/
def isOverloaded (x : ℚ) : Bool := 9/10 ≤ x

/- ═══════════════════════════════════════════════════════════════════════════
   `LoadBalancingRecommender.find_alternatives` (rows of `self.load_scores`).
   State / district names and pincodes are modelled as numbers; a 6-digit
   pincode's first-4-digit prefix is `pincode / 100`, its first-3-digit
   prefix is `pincode / 1000`.
   ═══════════════════════════════════════════════════════════════════════════ -/

structure LSRow where
  state : ℕ
  district : ℕ
  pincode : ℕ
  spare_capacity : ℚ
  load_score : ℚ
  forecast_load : ℚ
  is_overloaded : Bool
deriving DecidableEq, Repr

/-- `DataFrame.nlargest(k, col)`: sort descending by the key with a stable
sort (ties keep their original order, pandas `keep='first'`) and take the
first `k`. -/
def nlargestBy (key : LSRow → ℚ) (k : ℕ) (rows : List LSRow) : List LSRow :=
  (List.insertionSort (fun a b => key b ≤ key a) rows).take k

/-- First 4 digits of a 6-digit pincode: `pincode[:4]`. -/
def pin4 (p : ℕ) : ℕ := p / 100

/-- First 3 digits of a 6-digit pincode: `pincode[:3]`. -/
def pin3 (p : ℕ) : ℕ := p / 1000

/-- Body of the `find_alternatives` loop for one overloaded row `r`:
Pass 1 takes same-district rows with `spare_capacity > 0.5`; if fewer than
`k` are found, Pass 2 appends rows sharing the 4-digit prefix with
`spare_capacity > 0.3`; the result is truncated by `.head(k)`. -/
def findAlternatives (rows : List LSRow) (r : LSRow) (k : ℕ) : List LSRow :=
  let sameDistrict := nlargestBy (·.spare_capacity) k (rows.filter (fun a =>
    a.district = r.district ∧ a.state = r.state ∧ a.pincode ≠ r.pincode ∧
      mkRat 1 2 < a.spare_capacity))
  let combined :=
    if sameDistrict.length < k then
      sameDistrict ++ nlargestBy (·.spare_capacity) (k - sameDistrict.length)
        (rows.filter (fun a =>
          pin4 a.pincode = pin4 r.pincode ∧ a.pincode ≠ r.pincode ∧
            mkRat 3 10 < a.spare_capacity))
    else sameDistrict
  combined.take k

/-- `find_alternatives(top_n_overloaded, alternatives_per_pincode)`: take the
`topN` overloaded rows by `load_score` and pair each with its alternatives. -/
def findRecommendations (rows : List LSRow) (topN k : ℕ) : List (LSRow × List LSRow) :=
  (nlargestBy (·.load_score) topN (rows.filter (·.is_overloaded))).map
    (fun r => (r, findAlternatives rows r k))

/- ═══════════════════════════════════════════════════════════════════════════
   `LoadBalancingRecommender.simulate_load_balancing`: a recommendation is a
   source row together with its list of alternatives.
   ═══════════════════════════════════════════════════════════════════════════ -/

/-- `total_original_peak`: sum of the recommendations' forecast loads. -/
def simOriginalPeak (recs : List (LSRow × List LSRow)) : ℚ :=
  (recs.map (fun r => r.1.forecast_load)).sum

/-- `total_new_peak` at redirect percentage `pct`: recommendations with at
least one alternative contribute `load - load * pct / 100`, the rest their
full load. -/
def simNewPeak (recs : List (LSRow × List LSRow)) (pct : ℚ) : ℚ :=
  (recs.map (fun r =>
    if r.2 = [] then r.1.forecast_load
    else r.1.forecast_load - r.1.forecast_load * (pct / 100))).sum

/-- `peak_reduction_pct = (orig - new) / orig * 100 if orig > 0 else 0`. -/
def peakReductionPct (recs : List (LSRow × List LSRow)) (pct : ℚ) : ℚ :=
  if 0 < simOriginalPeak recs then
    (simOriginalPeak recs - simNewPeak recs pct) / simOriginalPeak recs * 100
  else 0

/- ═══════════════════════════════════════════════════════════════════════════
   `MobilitySignalIndexEngine.build_neighbor_graph(level='pincode')`:
   the data's pincodes are first grouped by `pin_region` (the 3-digit
   prefix); inside each group, `same_region` keeps pins sharing the 4-digit
   prefix and `adjacent_region` keeps pins whose 3-digit prefixes differ by
   at most 1; the union is deduplicated (`list(set(...))`).
   ═══════════════════════════════════════════════════════════════════════════ -/

/-- Neighbor list assigned to `pin` by the pincode-level graph builder.  The
`groupby('pin_region')` restricts the candidate pool to pincodes whose
3-digit prefix equals `pin`'s before the two filters run. -/
def pincodeNeighbors (pins : List ℕ) (pin : ℕ) : List ℕ :=
  let region := (pins.filter (fun p => pin3 p = pin3 pin)).dedup
  let sameRegion := region.filter (fun p => p ≠ pin ∧ pin4 p = pin4 pin)
  let adjacentRegion := region.filter (fun p =>
    p ≠ pin ∧ ((pin3 p : ℤ) - (pin3 pin : ℤ)).natAbs ≤ 1)
  (sameRegion ++ adjacentRegion).dedup

/- ═══════════════════════════════════════════════════════════════════════════
   `MobilitySignalIndexEngine.detect_wave_patterns` — the per-(state, start)
   accumulation.  `periods` is the chronological list of the state's
   high-MSI district sets (one entry per time period present in the state's
   high-MSI data).
   ═══════════════════════════════════════════════════════════════════════════ -/

/-- The subsequent periods visited by the inner loop:
`time_periods[start_idx + 1 : start_idx + min_duration + 2]` — a slice of
length at most `min_duration + 1`. -/
def waveWindow (periods : List (Finset ℕ)) (startIdx minDur : ℕ) : List (Finset ℕ) :=
  (periods.drop (startIdx + 1)).take (minDur + 1)

/-- The values of `affected_districts` in insertion order: the start
period's districts, then the district set of each visited period. -/
def waveAffected (periods : List (Finset ℕ)) (startIdx minDur : ℕ) : List (Finset ℕ) :=
  periods.getD startIdx ∅ :: waveWindow periods startIdx minDur

/-- `cumulative`: starts as the initial district set and unions each visited
period's district set. -/
def waveCumulative (periods : List (Finset ℕ)) (startIdx minDur : ℕ) : Finset ℕ :=
  (waveWindow periods startIdx minDur).foldl (· ∪ ·) (periods.getD startIdx ∅)

/-- `district_counts = [len(d) for d in affected_districts.values()]`. -/
def waveCounts (periods : List (Finset ℕ)) (startIdx minDur : ℕ) : List ℕ :=
  (waveAffected periods startIdx minDur).map Finset.card

/-- `len(cumulative) >= min_spread and max(district_counts) > district_counts[0]`. -/
def waveQualifies (periods : List (Finset ℕ)) (startIdx minDur minSpread : ℕ) : Bool :=
  minSpread ≤ (waveCumulative periods startIdx minDur).card ∧
    (waveCounts periods startIdx minDur).getD 0 0 <
      (waveCounts periods startIdx minDur).foldl max 0

/-- Modelled from the claim's words: the same accumulation but over
`min_duration + 2` subsequent periods. -/
def waveCumulativeClaimed (periods : List (Finset ℕ)) (startIdx minDur : ℕ) : Finset ℕ :=
  (((periods.drop (startIdx + 1)).take (minDur + 2)).foldl (· ∪ ·)
    (periods.getD startIdx ∅))

/-- Modelled from the claim's words: the qualification test applied after a
`min_duration + 2`-period accumulation. -/
def waveQualifiesClaimed (periods : List (Finset ℕ)) (startIdx minDur minSpread : ℕ) : Bool :=
  let affected := periods.getD startIdx ∅ :: (periods.drop (startIdx + 1)).take (minDur + 2)
  minSpread ≤ (waveCumulativeClaimed periods startIdx minDur).card ∧
    (affected.map Finset.card).getD 0 0 < (affected.map Finset.card).foldl max 0

/- ═══════════════════════════════════════════════════════════════════════════
   `MobilitySignalIndexEngine.compute_msi` (mobility_signal_index_analysis.py).
   The inputs are the matrices built by `compute_temporal_changes`:
   `chg` is the percent-change matrix (location × time index) and `zsc` the
   rolling z-score matrix, both with the same time index, so the code's
   `if t in self.temporal_zscores.index` / `if t in self.temporal_changes.index`
   membership tests are always true and the matrices are total functions
   here.  Locations are numbered; `nbrs` is `self.district_neighbors`.
   ═══════════════════════════════════════════════════════════════════════════ -/

structure MsiData where
  locs : List ℕ
  nbrs : ℕ → List ℕ
  chg : ℕ → ℕ → ℚ
  zsc : ℕ → ℕ → ℚ
  numPeriods : ℕ

/-- `valid_neighbors = [n for n in neighbors if n in locations]`. -/
def validNeighbors (d : MsiData) (loc : ℕ) : List ℕ :=
  (d.nbrs loc).filter (fun n => decide (n ∈ d.locs))

/-- The trailing window `time_periods[t_idx - window_size : t_idx + 1]`
(inclusive of the current period) of a per-period series. -/
def trailingWindow (f : ℕ → ℚ) (tIdx w : ℕ) : List ℚ :=
  (List.range (w + 1)).map (fun i => f (tIdx - w + i))

/-- `loc_changes`: the location's percent changes over the window. -/
def locWindow (d : MsiData) (loc tIdx w : ℕ) : List ℚ :=
  trailingWindow (d.chg loc) tIdx w

/-- The mean percent change across the valid neighbors at one period
(`.mean(axis=1)`). -/
def nbrMeanChange (d : MsiData) (loc t : ℕ) : ℚ :=
  listMean ((validNeighbors d loc).map (fun n => d.chg n t))

/-- `neighbor_changes`: the neighbor-mean percent changes over the window. -/
def nbrWindow (d : MsiData) (loc tIdx w : ℕ) : List ℚ :=
  trailingWindow (nbrMeanChange d loc) tIdx w

/-- `np.std` (population standard deviation, ddof = 0). -/
noncomputable def popStd (xs : List ℚ) : ℝ := Real.sqrt (popVar xs)

/-- Numerator of the Pearson correlation: the sum of products of deviations
from the respective means. -/
def pearsonNum (xs ys : List ℚ) : ℚ :=
  ((xs.zip ys).map (fun p => (p.1 - listMean xs) * (p.2 - listMean ys))).sum

/-- `np.corrcoef(xs, ys)[0, 1]`: covariance over the product of the standard
deviations; the shared `1/n` factors cancel, leaving
`Σ dx·dy / (√(Σ dx²) · √(Σ dy²))`. -/
noncomputable def pearsonCorr (xs ys : List ℚ) : ℝ :=
  (pearsonNum xs ys : ℝ) / (Real.sqrt (sqDevSum xs) * Real.sqrt (sqDevSum ys))

open Classical in
/-- `inverse_corr`: the negated correlation when
`len(loc_changes) > 2 and np.std(loc_changes) > 0 and np.std(neighbor_changes) > 0`,
else `0`. -/
noncomputable def inverseCorr (xs ys : List ℚ) : ℝ :=
  if 2 < xs.length ∧ 0 < popStd xs ∧ 0 < popStd ys then -(pearsonCorr xs ys) else 0

/-- `np.sign` on an exact rational. -/
def npSign (x : ℚ) : ℚ := if 0 < x then 1 else if x < 0 then -1 else 0

/-- `loc_direction = np.sign(loc_changes[-1])`. -/
def locDirection (d : MsiData) (loc tIdx w : ℕ) : ℚ :=
  npSign ((locWindow d loc tIdx w).getLastD 0)

/-- `opposite_count = np.sum(neighbor_directions != loc_direction)
if loc_direction != 0 else 0`. -/
def oppositeCount (d : MsiData) (loc tIdx w : ℕ) : ℕ :=
  if locDirection d loc tIdx w ≠ 0 then
    (validNeighbors d loc).countP (fun n =>
      decide (npSign (d.chg n tIdx) ≠ locDirection d loc tIdx w))
  else 0

/-- `spatial_spread = opposite_count / len(valid_neighbors)
if valid_neighbors else 0`. -/
def spatialSpread (d : MsiData) (loc tIdx w : ℕ) : ℚ :=
  if validNeighbors d loc = [] then 0
  else (oppositeCount d loc tIdx w : ℚ) / ((validNeighbors d loc).length : ℚ)

/-- `z_magnitude = abs(self.temporal_zscores.loc[t, loc])`. -/
def zMagnitude (d : MsiData) (loc tIdx : ℕ) : ℚ := |d.zsc loc tIdx|

/-- One record of `msi_records` (the fields the claims are about). -/
structure MsiRecord where
  loc : ℕ
  tIdx : ℕ
  msi_score : ℝ
  inverse_correlation : ℝ
  spatial_spread : ℚ
  z_magnitude : ℚ

/-- The loop body of `compute_msi` at one location and time index:
`msi = inverse_corr * (1 + spatial_spread) * min(z_magnitude, 3) / 3`. -/
noncomputable def msiRecordAt (d : MsiData) (loc tIdx w : ℕ) : MsiRecord :=
  { loc := loc
    tIdx := tIdx
    msi_score :=
      inverseCorr (locWindow d loc tIdx w) (nbrWindow d loc tIdx w) *
        (1 + (spatialSpread d loc tIdx w : ℝ)) *
        min ((zMagnitude d loc tIdx : ℝ)) 3 / 3
    inverse_correlation := inverseCorr (locWindow d loc tIdx w) (nbrWindow d loc tIdx w)
    spatial_spread := spatialSpread d loc tIdx w
    z_magnitude := zMagnitude d loc tIdx }

/-- `compute_msi(window_size)`: locations with fewer than 2 valid neighbors
are skipped (`continue`); the time loop runs
`for t_idx in range(window_size, len(time_periods))`. -/
noncomputable def computeMsi (d : MsiData) (w : ℕ) : List MsiRecord :=
  d.locs.flatMap (fun loc =>
    if 2 ≤ (validNeighbors d loc).length then
      (List.range' w (d.numPeriods - w)).map (fun tIdx => msiRecordAt d loc tIdx w)
    else [])

/-- The claim's words for the spatial spread: the fraction of valid neighbors
whose current-period sign differs from the location's current sign, and `0`
if the location's current change is exactly zero. -/
def spatialSpreadSpec (d : MsiData) (loc tIdx : ℕ) : ℚ :=
  if npSign (d.chg loc tIdx) = 0 then 0
  else (((validNeighbors d loc).filter (fun n =>
    decide (npSign (d.chg n tIdx) ≠ npSign (d.chg loc tIdx)))).length : ℚ) /
      ((validNeighbors d loc).length : ℚ)

/- ═══════════════════════════════════════════════════════════════════════════
   Concrete inputs used by witnesses and counterexamples.
   ═══════════════════════════════════════════════════════════════════════════ -/

/-- A three-row load-score table: the overloaded source `110001`, a
same-district sibling `110002` sharing the 4-digit prefix with ample spare
capacity, and an unrelated row `200001`. -/
def exRows : List LSRow :=
  [⟨0, 0, 110001, 0, 1, 100, true⟩,
   ⟨0, 0, 110002, mkRat 2 3, mkRat 1 3, 10, false⟩,
   ⟨0, 1, 200001, mkRat 1 3, mkRat 2 3, 50, false⟩]

/-- The recommendation `find_alternatives` produces for `110001` on
`exRows` with `alternatives_per_pincode = 2`. -/
def exRec : LSRow × List LSRow :=
  (⟨0, 0, 110001, 0, 1, 100, true⟩,
   [⟨0, 0, 110002, mkRat 2 3, mkRat 1 3, 10, false⟩,
    ⟨0, 0, 110002, mkRat 2 3, mkRat 1 3, 10, false⟩])

/- ═══════════════════════════════════════════════════════════════════════════
   Theorems.
   ═══════════════════════════════════════════════════════════════════════════ -/

/-- C3 (counterexample): the claim states right-open bins with a load score
of exactly 0.9 categorized Critical; `pd.cut`'s default right-closed bins
put 0.9 in High instead (while `is_overloaded` still flags it). -/
theorem load_category_boundary_cx :
    loadCategory (9/10) = some LoadCat.high ∧
    loadCategory (9/10) ≠ some LoadCat.critical ∧
    isOverloaded (9/10) = true := by
  have h : loadCategory (9/10) = some LoadCat.high := by
    rw [loadCategory, if_neg (by norm_num), if_neg (by norm_num), if_pos (by norm_num)]
  refine ⟨h, by rw [h]; simp, ?_⟩
  rw [isOverloaded, decide_eq_true_eq]

/-- C3 (amended): `load_category` is assigned by left-open right-closed bins
over the edges `[0, 0.5, 0.75, 0.9, 1.0]` — Low on `(0, 0.5]`, Medium on
`(0.5, 0.75]`, High on `(0.75, 0.9]`, Critical on `(0.9, 1.0]` (values
outside `(0, 1]` get no category) — so a row with load score exactly 0.9 is
categorized High, and it is flagged overloaded since the overload flag tests
`load_score ≥ 0.9`. -/
theorem load_category_bins (x : ℚ) :
    (loadCategory x = some LoadCat.low ↔ 0 < x ∧ x ≤ 1/2) ∧
    (loadCategory x = some LoadCat.medium ↔ 1/2 < x ∧ x ≤ 3/4) ∧
    (loadCategory x = some LoadCat.high ↔ 3/4 < x ∧ x ≤ 9/10) ∧
    (loadCategory x = some LoadCat.critical ↔ 9/10 < x ∧ x ≤ 1) ∧
    (isOverloaded x = true ↔ 9/10 ≤ x) := by
  unfold loadCategory isOverloaded
  refine ⟨?_, ?_, ?_, ?_, by simp⟩ <;>
    · split_ifs <;> simp_all <;> intros <;> linarith

/-- C5 (code evaluated at the failing input): with pincodes 110001 and
111001 in the data, whose 3-digit prefixes 110 and 111 differ by exactly 1,
the pincode-level graph gives 110001 an empty neighbor list, because the
`groupby('pin_region')` restricts candidates to the same 3-digit prefix
before the adjacency test runs. -/
theorem pincode_neighbors_adjacency_dead :
    pincodeNeighbors [110001, 111001] 110001 = [] ∧
    ((pin3 111001 : ℤ) - (pin3 110001 : ℤ)).natAbs = 1 := by decide

/-- C6 (counterexample): with per-period high-MSI district sets
`[{0},{0},{0},{0},{0},{0,1,2}]`, start index 0, `min_duration = 3` and
`min_spread = 3`, an accumulation over `min_duration + 2` subsequent periods
(the claim's reading) qualifies as a wave, but the code, which stops after
`min_duration + 1` subsequent periods, does not. -/
theorem wave_window_cx :
    waveQualifiesClaimed [{0}, {0}, {0}, {0}, {0}, {0, 1, 2}] 0 3 3 = true ∧
    waveQualifies [{0}, {0}, {0}, {0}, {0}, {0, 1, 2}] 0 3 3 = false := by decide

/-- C10: on `exRows` with `alternatives_per_pincode = 2`, the recommendation
for 110001 lists pincode 110002 twice — it passes the Pass-1 same-district
filter and again the Pass-2 prefix filter, and both copies survive the final
truncation. -/
theorem find_alternatives_duplicate :
    (findRecommendations exRows 20 2).map
      (fun rec => (rec.1.pincode, rec.2.map (·.pincode))) =
      [(110001, [110002, 110002])] := by decide

/-- Daily records of one geographic unit over four months, used by the C1
witness. -/
def exRecords : List (ℕ × ℚ) := [(0, 10), (1, 20), (2, 30), (3, 40)]

/-- C1: for every unit, the district-level trend is
`(mean of last 3 monthly sums - mean of first 3 monthly sums) / max(mean of
first 3, 1)` when at least 3 distinct months exist and `0` otherwise; the
pincode-level trend uses 2-month windows with a 2-month minimum; and the
forecast load is the last month's summed value times `(1 + 0.3 * trend)` at
both granularities. -/
theorem forecast_trend_formula (records : List (ℕ × ℚ)) :
    (3 ≤ (monthlySums records).length →
      districtTrend (monthlySums records) =
        (listMean (lastN 3 (monthlySums records)) -
          listMean ((monthlySums records).take 3)) /
          max (listMean ((monthlySums records).take 3)) 1) ∧
    ((monthlySums records).length < 3 → districtTrend (monthlySums records) = 0) ∧
    (districtForecast records =
      lastMonthLoad (monthlySums records) *
        (1 + (3/10) * districtTrend (monthlySums records))) ∧
    (2 ≤ (monthlySums records).length →
      pincodeTrend (monthlySums records) =
        (listMean (lastN 2 (monthlySums records)) -
          listMean ((monthlySums records).take 2)) /
          max (listMean ((monthlySums records).take 2)) 1) ∧
    ((monthlySums records).length < 2 → pincodeTrend (monthlySums records) = 0) ∧
    (pincodeForecast records =
      lastMonthLoad (monthlySums records) *
        (1 + (3/10) * pincodeTrend (monthlySums records))) := by
  refine ⟨fun h => ?_, fun h => ?_, ?_, fun h => ?_, fun h => ?_, ?_⟩
  · rw [districtTrend, if_pos h]
  · rw [districtTrend, if_neg (by omega)]
  · rw [districtForecast]; ring
  · rw [pincodeTrend, if_pos h]
  · rw [pincodeTrend, if_neg (by omega)]
  · rw [pincodeForecast]; ring

/-- Witness for C1 at a unit with four monthly records. -/
theorem forecast_trend_formula_witness :
    3 ≤ (monthlySums exRecords).length ∧
    districtTrend (monthlySums exRecords) =
      (listMean (lastN 3 (monthlySums exRecords)) -
        listMean ((monthlySums exRecords).take 3)) /
        max (listMean ((monthlySums exRecords).take 3)) 1 :=
  ⟨by decide, (forecast_trend_formula exRecords).1 (by decide)⟩

/-- Helper for C7: with every recommendation owning at least one
alternative, the new aggregate peak is the original aggregate scaled by
`1 - pct/100`. -/
theorem simNewPeak_eq_of_alts (recs : List (LSRow × List LSRow)) (pct : ℚ)
    (h : ∀ r ∈ recs, r.2 ≠ []) :
    simNewPeak recs pct = simOriginalPeak recs * (1 - pct / 100) := by
  induction recs with
  | nil => simp [simNewPeak, simOriginalPeak]
  | cons a l ih =>
    have ha : a.2 ≠ [] := h a (List.mem_cons_self a l)
    have ih2 := ih (fun r hr => h r (List.mem_cons_of_mem a hr))
    simp only [simNewPeak, simOriginalPeak, List.map_cons, List.sum_cons] at ih2 ⊢
    rw [if_neg ha, ih2]
    ring

/-- C7: with non-negative forecast loads and at least one alternative per
recommendation, `peak_reduction_pct` is monotonically non-decreasing in the
redirect percentage. -/
theorem peak_reduction_monotone (recs : List (LSRow × List LSRow)) (p1 p2 : ℚ)
    (hload : ∀ r ∈ recs, 0 ≤ r.1.forecast_load)
    (halts : ∀ r ∈ recs, r.2 ≠ [])
    (hp : p1 ≤ p2) :
    peakReductionPct recs p1 ≤ peakReductionPct recs p2 := by
  unfold peakReductionPct
  split_ifs with h
  · rw [simNewPeak_eq_of_alts recs p1 halts, simNewPeak_eq_of_alts recs p2 halts]
    have h0 : simOriginalPeak recs ≠ 0 := ne_of_gt h
    have e : ∀ p : ℚ,
        (simOriginalPeak recs - simOriginalPeak recs * (1 - p / 100)) /
          simOriginalPeak recs * 100 = p := by
      intro p
      field_simp
      ring
    rw [e p1, e p2]
    exact hp
  · exact le_refl 0

/-- Witness for C7 on a single-recommendation list at percentages 10 and 20. -/
theorem peak_reduction_monotone_witness :
    (∀ r ∈ [exRec], 0 ≤ r.1.forecast_load) ∧ (∀ r ∈ [exRec], r.2 ≠ []) ∧
    (10 : ℚ) ≤ 20 ∧ peakReductionPct [exRec] 10 ≤ peakReductionPct [exRec] 20 :=
  ⟨by decide, by decide, by decide,
    peak_reduction_monotone [exRec] 10 20 (by decide) (by decide) (by decide)⟩

/-- Helper: membership in an `nlargest` result implies membership in the
input rows. -/
theorem mem_of_mem_nlargestBy {key : LSRow → ℚ} {k : ℕ} {rows : List LSRow}
    {a : LSRow} (h : a ∈ nlargestBy key k rows) : a ∈ rows :=
  ((List.perm_insertionSort _ rows).mem_iff).mp (List.mem_of_mem_take h)

/-- Helper for C9: every alternative comes from one of the two filters, so
its pincode differs from the source row's. -/
theorem findAlternatives_pincode_ne (rows : List LSRow) (r : LSRow) (k : ℕ)
    (a : LSRow) (ha : a ∈ findAlternatives rows r k) : a.pincode ≠ r.pincode := by
  simp only [findAlternatives] at ha
  have ha2 := List.mem_of_mem_take ha
  split at ha2
  · rcases List.mem_append.mp ha2 with h1 | h2
    · have := List.mem_filter.mp (mem_of_mem_nlargestBy h1)
      simp only [decide_eq_true_eq] at this
      exact this.2.2.2.1
    · have := List.mem_filter.mp (mem_of_mem_nlargestBy h2)
      simp only [decide_eq_true_eq] at this
      exact this.2.2.1
  · have := List.mem_filter.mp (mem_of_mem_nlargestBy ha2)
    simp only [decide_eq_true_eq] at this
    exact this.2.2.2.1

/-- C9: every recommendation produced by `find_alternatives` has an
alternatives list that never contains the source unit's pincode and whose
length never exceeds `alternatives_per_pincode`. -/
theorem recommendation_alternatives_sound (rows : List LSRow) (topN k : ℕ)
    (rec : LSRow × List LSRow) (hrec : rec ∈ findRecommendations rows topN k) :
    (∀ a ∈ rec.2, a.pincode ≠ rec.1.pincode) ∧ rec.2.length ≤ k := by
  obtain ⟨r, hr, hrw⟩ := List.mem_map.mp hrec
  subst hrw
  constructor
  · intro a ha
    exact findAlternatives_pincode_ne rows r k a ha
  · simp only [findAlternatives]
    exact List.length_take_le k _

/-- Witness for C9 on `exRows`. -/
theorem recommendation_alternatives_sound_witness :
    exRec ∈ findRecommendations exRows 20 2 ∧
    ((∀ a ∈ exRec.2, a.pincode ≠ exRec.1.pincode) ∧ exRec.2.length ≤ 2) :=
  ⟨by decide, recommendation_alternatives_sound exRows 20 2 exRec (by decide)⟩

/-- Helper: a sum of squared deviations is non-negative. -/
theorem sqDevSum_nonneg (xs : List ℚ) : 0 ≤ sqDevSum xs := by
  refine List.sum_nonneg ?_
  intro x hx
  obtain ⟨y, _, rfl⟩ := List.mem_map.mp hx
  positivity

/-- Helper: the population variance is non-negative. -/
theorem popVar_nonneg (xs : List ℚ) : 0 ≤ popVar xs :=
  div_nonneg (sqDevSum_nonneg xs) (by positivity)

/-- C4 (counterexample): a unit with a single daily record gets a NaN spike
risk rather than a defined value in `[0, 2]`, and on the two-record unit
`[1, 3]` the stored value `min(√2 / 2, 2)` differs from the claimed
population-std-over-mean value `1/2` (pandas `.std()` uses ddof = 1 and the
code divides by `max(mean, 1)`, not by the mean). -/
theorem spike_risk_cx :
    spikeRisk [(5 : ℚ)] = none ∧
    spikeRisk [1, 3] ≠ some (spikeRiskClaimed [1, 3]) := by
  constructor
  · rw [spikeRisk, if_pos (by norm_num)]
  · have hsv : sampleVar [(1 : ℚ), 3] = 2 := by
      norm_num [sampleVar, sqDevSum, listMean]
    have hpv : popVar [(1 : ℚ), 3] = 1 := by
      norm_num [popVar, sqDevSum, listMean]
    have hmean : listMean [(1 : ℚ), 3] = 2 := by
      norm_num [listMean]
    rw [spikeRisk, if_neg (by norm_num), spikeRiskClaimed, hsv, hpv, hmean]
    have hs2 : Real.sqrt 2 ≤ 2 := by
      nlinarith [Real.sq_sqrt (by norm_num : (0 : ℝ) ≤ 2), Real.sqrt_nonneg 2]
    have hsq : (Real.sqrt 2) ^ 2 = 2 := Real.sq_sqrt (by norm_num)
    push_cast
    rw [Real.sqrt_one]
    intro hEq
    rw [Option.some_inj] at hEq
    rw [show max (2 : ℝ) 1 = 2 by norm_num,
        show min (Real.sqrt 2 / 2) 2 = Real.sqrt 2 / 2 from min_eq_left (by linarith),
        show min (max ((1 : ℝ) / 2) 0) 2 = 1 / 2 by norm_num] at hEq
    have : Real.sqrt 2 = 1 := by linarith
    rw [this] at hsq
    norm_num at hsq

/-- C4 (amended): the spike risk is the sample standard deviation (ddof = 1)
of the unit's daily counts divided by `max(mean, 1)`, capped above at 2; it
is a defined value in `[0, 2]` for every unit with at least two daily
records, and NaN (undefined) for a unit with a single daily record. -/
theorem spike_risk_bounds (xs : List ℚ) :
    (2 ≤ xs.length → ∃ r : ℝ, spikeRisk xs = some r ∧ 0 ≤ r ∧ r ≤ 2) ∧
    (xs.length = 1 → spikeRisk xs = none) := by
  constructor
  · intro h
    rw [spikeRisk, if_neg (by omega)]
    refine ⟨_, rfl, ?_, min_le_right _ _⟩
    have hd : (0 : ℝ) < max ((listMean xs : ℚ) : ℝ) 1 :=
      lt_of_lt_of_le one_pos (le_max_right _ _)
    exact le_min (div_nonneg (Real.sqrt_nonneg _) hd.le) (by norm_num)
  · intro h
    rw [spikeRisk, if_pos (by omega)]

/-- Witness for C4 (amended) on the two-record unit `[0, 0]`. -/
theorem spike_risk_bounds_witness :
    2 ≤ ([0, 0] : List ℚ).length ∧
    (∃ r : ℝ, spikeRisk [0, 0] = some r ∧ 0 ≤ r ∧ r ≤ 2) :=
  ⟨by decide, (spike_risk_bounds [0, 0]).1 (by decide)⟩

/-- A tiny MSI input: three locations, every location neighboring 1 and 2,
identically-zero percent changes and z-scores, five time periods. -/
def exMsi : MsiData := ⟨[0, 1, 2], fun _ => [1, 2], fun _ _ => 0, fun _ _ => 0, 5⟩

/-- C8: whenever the trailing window has fewer than 3 points or either the
location's percent-change window or the neighbor-mean window has zero
standard deviation, the stored `inverse_correlation` is exactly 0 rather
than undefined. -/
theorem inverse_correlation_fallback (d : MsiData) (loc tIdx w : ℕ)
    (h : (locWindow d loc tIdx w).length < 3 ∨
      popStd (locWindow d loc tIdx w) = 0 ∨ popStd (nbrWindow d loc tIdx w) = 0) :
    (msiRecordAt d loc tIdx w).inverse_correlation = 0 := by
  show inverseCorr (locWindow d loc tIdx w) (nbrWindow d loc tIdx w) = 0
  rw [inverseCorr, if_neg]
  rintro ⟨h1, h2, h3⟩
  rcases h with h | h | h
  · omega
  · rw [h] at h2
    exact lt_irrefl 0 h2
  · rw [h] at h3
    exact lt_irrefl 0 h3

/-- Witness for C8 on the constant-zero data, whose windows have zero
standard deviation. -/
theorem inverse_correlation_fallback_witness :
    ((locWindow exMsi 0 3 3).length < 3 ∨ popStd (locWindow exMsi 0 3 3) = 0 ∨
      popStd (nbrWindow exMsi 0 3 3) = 0) ∧
    (msiRecordAt exMsi 0 3 3).inverse_correlation = 0 := by
  have hv : popVar (locWindow exMsi 0 3 3) = 0 := by
    rw [show locWindow exMsi 0 3 3 = [0, 0, 0, 0] from by decide]
    norm_num [popVar, sqDevSum, listMean]
  have h : popStd (locWindow exMsi 0 3 3) = 0 := by
    rw [popStd, hv]
    push_cast
    exact Real.sqrt_zero
  exact ⟨Or.inr (Or.inl h),
    inverse_correlation_fallback exMsi 0 3 3 (Or.inr (Or.inl h))⟩

/-- Helper: with the time index at or past the window size, the last entry
of the trailing window is the current period's percent change. -/
theorem locWindow_getLastD (d : MsiData) (loc tIdx w : ℕ) (h : w ≤ tIdx) :
    (locWindow d loc tIdx w).getLastD 0 = d.chg loc tIdx := by
  rw [locWindow, trailingWindow, List.range_succ]
  simp only [List.map_append, List.map_cons, List.map_nil, List.getLastD_concat]
  congr 1
  omega

/-- Helper for C2: the code's spatial-spread computation agrees with the
claim's wording (fraction of valid neighbors whose current-period sign
differs, zero if the location's current change has sign zero). -/
theorem spatialSpread_eq_spec (d : MsiData) (loc tIdx w : ℕ)
    (h2 : 2 ≤ (validNeighbors d loc).length) (h3 : w ≤ tIdx) :
    spatialSpread d loc tIdx w = spatialSpreadSpec d loc tIdx := by
  have hne : validNeighbors d loc ≠ [] := by
    intro he
    rw [he] at h2
    simp at h2
  have hld : locDirection d loc tIdx w = npSign (d.chg loc tIdx) := by
    rw [locDirection, locWindow_getLastD d loc tIdx w h3]
  rw [spatialSpread, if_neg hne, spatialSpreadSpec, oppositeCount]
  by_cases hz : npSign (d.chg loc tIdx) = 0
  · rw [if_pos hz, if_neg (by rw [hld]; simpa using hz)]
    simp
  · rw [if_neg hz, if_pos (by rw [hld]; exact hz)]
    rw [List.countP_eq_length_filter]
    simp only [hld]

/-- C2: every record `compute_msi` emits — one for each location with at
least two valid neighbors and each time index from `window_size` on — has
`msi_score` exactly equal to
`inverse_correlation * (1 + spatial_spread) * min(z_magnitude, 3) / 3`, with
the spatial spread as the fraction of valid neighbors whose current-period
sign differs from the location's (0 on a zero current change) and the
z-magnitude as the absolute rolling z-score. -/
theorem compute_msi_formula (d : MsiData) (loc tIdx w : ℕ)
    (h1 : loc ∈ d.locs) (h2 : 2 ≤ (validNeighbors d loc).length)
    (h3 : w ≤ tIdx) (h4 : tIdx < d.numPeriods) :
    msiRecordAt d loc tIdx w ∈ computeMsi d w ∧
    (msiRecordAt d loc tIdx w).msi_score =
      inverseCorr (locWindow d loc tIdx w) (nbrWindow d loc tIdx w) *
        (1 + (spatialSpreadSpec d loc tIdx : ℝ)) *
        min |((d.zsc loc tIdx : ℚ) : ℝ)| 3 / 3 := by
  constructor
  · rw [computeMsi, List.mem_flatMap]
    refine ⟨loc, h1, ?_⟩
    rw [if_pos h2]
    refine List.mem_map.mpr ⟨tIdx, ?_, rfl⟩
    rw [List.mem_range']
    exact ⟨tIdx - w, by omega, by omega⟩
  · show inverseCorr (locWindow d loc tIdx w) (nbrWindow d loc tIdx w) *
        (1 + ((spatialSpread d loc tIdx w : ℚ) : ℝ)) *
        min ((zMagnitude d loc tIdx : ℚ) : ℝ) 3 / 3 = _
    rw [spatialSpread_eq_spec d loc tIdx w h2 h3, zMagnitude, Rat.cast_abs]

/-- Witness for C2 on the constant-zero data at location 0, window size 3,
time index 3. -/
theorem compute_msi_formula_witness :
    0 ∈ exMsi.locs ∧ 2 ≤ (validNeighbors exMsi 0).length ∧
    3 ≤ 3 ∧ 3 < exMsi.numPeriods ∧
    (msiRecordAt exMsi 0 3 3 ∈ computeMsi exMsi 3 ∧
      (msiRecordAt exMsi 0 3 3).msi_score =
        inverseCorr (locWindow exMsi 0 3 3) (nbrWindow exMsi 0 3 3) *
          (1 + (spatialSpreadSpec exMsi 0 3 : ℝ)) *
          min |((exMsi.zsc 0 3 : ℚ) : ℝ)| 3 / 3) :=
  ⟨by decide, by decide, by decide, by decide,
    compute_msi_formula exMsi 0 3 3 (by decide) (by decide) (by decide) (by decide)⟩

/-- Helper: membership in a left fold of unions. -/
theorem mem_foldl_union (l : List (Finset ℕ)) (init : Finset ℕ) (x : ℕ) :
    x ∈ l.foldl (· ∪ ·) init ↔ x ∈ init ∨ ∃ S ∈ l, x ∈ S := by
  induction l generalizing init with
  | nil => simp
  | cons a l ih =>
    rw [List.foldl_cons, ih]
    simp only [Finset.mem_union, List.mem_cons]
    constructor
    · rintro ((hx | hx) | ⟨S, hS, hxS⟩)
      · exact Or.inl hx
      · exact Or.inr ⟨a, Or.inl rfl, hx⟩
      · exact Or.inr ⟨S, Or.inr hS, hxS⟩
    · rintro (hx | ⟨S, hS | hS, hxS⟩)
      · exact Or.inl (Or.inl hx)
      · exact Or.inl (Or.inr (hS ▸ hxS))
      · exact Or.inr ⟨S, hS, hxS⟩

/-- Helper: the members of `(l.drop k).take n` are exactly the entries of
`l` at positions `k + j` for `j < n`. -/
theorem mem_take_drop_iff (l : List (Finset ℕ)) (k n : ℕ) (S : Finset ℕ) :
    S ∈ (l.drop k).take n ↔ ∃ j, j < n ∧ k + j < l.length ∧ l.getD (k + j) ∅ = S := by
  constructor
  · intro h
    obtain ⟨j, hj, hS⟩ := List.mem_iff_getElem.mp h
    have hb : j < n ∧ k + j < l.length := by
      rw [List.length_take, List.length_drop] at hj
      omega
    refine ⟨j, hb.1, hb.2, ?_⟩
    rw [List.getD_eq_getElem?_getD, List.getElem?_eq_getElem hb.2, Option.getD_some, ← hS,
      List.getElem_take, List.getElem_drop]
  · rintro ⟨j, hjn, hkj, hS⟩
    have hb : j < ((l.drop k).take n).length := by
      rw [List.length_take, List.length_drop]
      omega
    refine List.mem_iff_getElem.mpr ⟨j, hb, ?_⟩
    rw [List.getElem_take, List.getElem_drop, ← hS, List.getD_eq_getElem?_getD,
      List.getElem?_eq_getElem hkj, Option.getD_some]

/-- C6 (amended): a district belongs to the accumulated set for a candidate
start exactly when it is high-MSI in the start period or in one of the
`min_duration + 1` (not `min_duration + 2`) subsequent periods, and the wave
qualification test is `min_spread ≤ |cumulative|` together with a peak
per-period count strictly greater than the start-period count. -/
theorem wave_accumulation (periods : List (Finset ℕ)) (startIdx minDur minSpread : ℕ) :
    (∀ x : ℕ, x ∈ waveCumulative periods startIdx minDur ↔
      ∃ i, i ≤ minDur + 1 ∧ x ∈ periods.getD (startIdx + i) ∅) ∧
    (waveQualifies periods startIdx minDur minSpread = true ↔
      minSpread ≤ (waveCumulative periods startIdx minDur).card ∧
        (waveCounts periods startIdx minDur).getD 0 0 <
          (waveCounts periods startIdx minDur).foldl max 0) := by
  constructor
  · intro x
    rw [waveCumulative, mem_foldl_union]
    constructor
    · rintro (hx | ⟨S, hS, hxS⟩)
      · exact ⟨0, by omega, by simpa using hx⟩
      · obtain ⟨j, hj, hkj, hSj⟩ := (mem_take_drop_iff periods (startIdx + 1) (minDur + 1) S).mp hS
        refine ⟨j + 1, by omega, ?_⟩
        rw [show startIdx + (j + 1) = startIdx + 1 + j by omega, hSj]
        exact hxS
    · rintro ⟨i, hi, hx⟩
      cases i with
      | zero => exact Or.inl (by simpa using hx)
      | succ j =>
        right
        have hlt : startIdx + (j + 1) < periods.length := by
          by_contra hge
          rw [List.getD_eq_getElem?_getD, List.getElem?_eq_none (by omega)] at hx
          simp at hx
        refine ⟨periods.getD (startIdx + (j + 1)) ∅, ?_, hx⟩
        rw [waveWindow, mem_take_drop_iff]
        exact ⟨j, by omega, by omega, by rw [show startIdx + 1 + j = startIdx + (j + 1) by omega]⟩
  · rw [waveQualifies]
    exact decide_eq_true_iff

end UIDAI
